import Mathlib

/-!
Verification development for the Billager listing pipeline (src/App.js).

The app keeps its listing set in component state (`cars`), loads it from a
remote `cars` table (`loadCars`, lines 41-60), mutates it through `addCar`
(86-110), `updateCar` (112-136) and `deleteCar` (138-168), validates drafts
in `validateForm` (552-581 and the identical copy at 863-892), and renders
`filteredAndSortedCars` (170-191), a pure filter plus sort over the set.

JavaScript runtime behaviour that the code relies on is embedded explicitly:
`parseInt`, `String.prototype.trim`, `String.prototype.toLowerCase` (ASCII
case mapping), `String.prototype.includes`, and `Array.prototype.sort` with
a numeric comparator, where the ECMAScript SortCompare step maps a NaN
comparator result to +0 and the sort is a stable merge sort.
-/

/-! ## JavaScript string and number primitives -/

/-- Value of a digit character for radix 10 or 16, as used by `parseInt`. -/
def digitVal (base : Nat) (c : Char) : Option Nat :=
  if '0' ≤ c ∧ c ≤ '9' ∧ c.toNat - '0'.toNat < base then some (c.toNat - '0'.toNat)
  else if base = 16 ∧ 'a' ≤ c ∧ c ≤ 'f' then some (c.toNat - 'a'.toNat + 10)
  else if base = 16 ∧ 'A' ≤ c ∧ c ≤ 'F' then some (c.toNat - 'A'.toNat + 10)
  else none

/-- Longest leading run of digits of the given radix; `none` when the run is
empty, matching `parseInt` returning NaN when no digit can be consumed. -/
def parseDigits (base : Nat) (cs : List Char) : Option Nat :=
  let ds := cs.takeWhile (fun c => (digitVal base c).isSome)
  if ds = [] then none
  else some (ds.foldl (fun acc c => acc * base + (digitVal base c).getD 0) 0)

/-- After the optional sign, `parseInt` without an explicit radix treats a
leading `0x` or `0X` as a hexadecimal prefix, otherwise parses base 10. -/
def parseUnsigned (cs : List Char) : Option Nat :=
  match cs with
  | '0' :: 'x' :: rest => parseDigits 16 rest
  | '0' :: 'X' :: rest => parseDigits 16 rest
  | _ => parseDigits 10 cs

/-- `parseInt(s)` on a character list: skip leading whitespace, read an
optional sign, then consume as many digits as possible; `none` models NaN. -/
def jsParseIntChars (cs0 : List Char) : Option Int :=
  match cs0.dropWhile Char.isWhitespace with
  | '-' :: rest => (parseUnsigned rest).map (fun n => -(n : Int))
  | '+' :: rest => (parseUnsigned rest).map (fun n => (n : Int))
  | cs => (parseUnsigned cs).map (fun n => (n : Int))

/-- JavaScript `parseInt` applied to a string, `none` standing for NaN. -/
def jsParseInt (s : String) : Option Int := jsParseIntChars s.data

/-- Characters of `String.prototype.trim`: whitespace stripped at both ends. -/
def trimChars (cs : List Char) : List Char :=
  ((cs.dropWhile Char.isWhitespace).reverse.dropWhile Char.isWhitespace).reverse

/-- JavaScript `String.prototype.trim`. -/
def jsTrim (s : String) : String := ⟨trimChars s.data⟩

/-- JavaScript `String.prototype.toLowerCase` restricted to ASCII case
mapping, which covers every string the pipeline compares. -/
def jsToLower (s : String) : String := ⟨s.data.map Char.toLower⟩

/-- Does the pattern occur at the head of the text? -/
def leadsWith : List Char → List Char → Bool
  | [], _ => true
  | _ :: _, [] => false
  | p :: ps, t :: ts => p == t && leadsWith ps ts

/-- Does the pattern occur anywhere in the text? -/
def occursIn (pat : List Char) : List Char → Bool
  | [] => pat == []
  | t :: ts => leadsWith pat (t :: ts) || occursIn pat ts

/-- JavaScript `s.includes(search)`: substring containment. -/
def jsIncludes (s search : String) : Bool := occursIn search.data s.data

/-- JavaScript subtraction of two numbers each of which may be NaN (`none`);
any NaN operand makes the result NaN. -/
def nanSub : Option Int → Option Int → Option Int
  | some x, some y => some (x - y)
  | _, _ => none

/-- The ECMAScript SortCompare step: a NaN comparator result is replaced by
+0, so the sort treats such a pair as equal. -/
def sortCompareVal (v : Option Int) : Int := v.getD 0

/-! ## Data model

`FormData` is the draft collected by AddCarScreen / EditCarScreen
(App.js lines 532-543): every scalar field is a string, images is a list
of URI strings.

`CarRow` is a row of the remote `cars` table as the app reads it back
(`loadCars`, line 45-48). The columns written by the app are `user_id`,
`brand`, `model`, `year`, `km`, `price`, `images` (insert, lines 90-98) and
additionally `updated_at` (update, lines 116-124); `id` and `created_at`
are assigned by the table. The `description`, `ownerName`, `ownerPhone`
and `ownerEmail` values are never sent by any write, so reading them back
yields no value; they are modelled as `Option` fields that every write
leaves at `none`. Timestamps are modelled as abstract numeric instants. -/

structure FormData where
  brand : String
  model : String
  year : String
  km : String
  price : String
  description : String
  images : List String
  ownerName : String
  ownerPhone : String
  ownerEmail : String
deriving DecidableEq, Repr

structure CarRow where
  id : Nat
  user_id : String
  brand : String
  model : String
  year : String
  km : String
  price : String
  images : List String
  description : Option String
  ownerName : Option String
  ownerPhone : Option String
  ownerEmail : Option String
  created_at : Nat
  updated_at : Nat
deriving DecidableEq, Repr

/-! ## Persistence operations (App.js 41-168)

The remote table is modelled as a list of rows; `freshId` and `now` stand
for the identifier and timestamp the table assigns. -/

/-- `loadCars` (41-60) requests `select('*')` ordered by `created_at` with
ascending false: a stable sort of the table descending by `created_at`. -/
def listAll (db : List CarRow) : List CarRow :=
  db.mergeSort (fun a b => decide (b.created_at ≤ a.created_at))

/-- `addCar` (86-110): the insert payload (lines 90-98) provides only
`user_id`, `brand`, `model`, `year`, `km`, `price` and `images`
(`carData.images || []` only guards a missing list); the table assigns
`id` and the timestamp columns, and every column absent from the payload
is left unset. -/
def addCar (db : List CarRow) (userId : String) (freshId : Nat) (now : Nat)
    (carData : FormData) : List CarRow :=
  db ++ [{ id := freshId
           user_id := userId
           brand := carData.brand
           model := carData.model
           year := carData.year
           km := carData.km
           price := carData.price
           images := carData.images
           description := none
           ownerName := none
           ownerPhone := none
           ownerEmail := none
           created_at := now
           updated_at := now }]

/-- `updateCar` (112-136): `update({...}).eq('id', carId)` overwrites only
`brand`, `model`, `year`, `km`, `price`, `images` and `updated_at`
(lines 116-124) on the matching row; all other columns keep their values. -/
def updateCar (db : List CarRow) (carId : Nat) (carData : FormData) (now : Nat) :
    List CarRow :=
  db.map fun row =>
    if row.id = carId then
      { row with
        brand := carData.brand
        model := carData.model
        year := carData.year
        km := carData.km
        price := carData.price
        images := carData.images
        updated_at := now }
    else row

/-! ## Query pipeline (`filteredAndSortedCars`, App.js 170-191) -/

/-- The filter predicate (lines 171-178): the search text is lowercased
(never trimmed) and tested with `includes` against the lowercased brand,
the lowercased model, and `car.year.toString()` (the year string as is). -/
def carMatches (searchQuery : String) (car : CarRow) : Bool :=
  let query := jsToLower searchQuery
  jsIncludes (jsToLower car.brand) query ||
    jsIncludes (jsToLower car.model) query ||
    jsIncludes car.year query

/-- `cars.filter(...)` of lines 171-178. -/
def jsFilter (cars : List CarRow) (searchQuery : String) : List CarRow :=
  cars.filter (carMatches searchQuery)

/-- `parseInt(c.price || 0)` (line 183): an empty string is falsy, so it is
replaced by the number 0 before parsing; otherwise the string is parsed. -/
def priceNum (car : CarRow) : Option Int :=
  if car.price = "" then some 0 else jsParseInt car.price

/-- `parseInt(c.km || 0)` (line 185). -/
def kmNum (car : CarRow) : Option Int :=
  if car.km = "" then some 0 else jsParseInt car.km

/-- `new Date(car.createdAt)` in the comparator (lines 186-188): `cars` rows
carry the column `created_at`, not a `createdAt` property, so the property
read yields undefined, `new Date(undefined)` is an invalid date, and its
numeric value is NaN. -/
def dateMs (_ : CarRow) : Option Int := none

/-- The comparator of lines 180-190 after the SortCompare NaN step:
`price` descending, `km` ascending, and `date` (also the default branch)
by the difference of the two invalid dates. -/
def carCompare (sortBy : String) (a b : CarRow) : Int :=
  if sortBy = "price" then sortCompareVal (nanSub (priceNum b) (priceNum a))
  else if sortBy = "km" then sortCompareVal (nanSub (kmNum a) (kmNum b))
  else sortCompareVal (nanSub (dateMs b) (dateMs a))

/-- The sort order induced by the comparator: `a` stays before `b` when the
comparator does not order `b` strictly first. -/
def carSortLE (sortBy : String) (a b : CarRow) : Bool :=
  decide (carCompare sortBy a b ≤ 0)

/-- `filteredAndSortedCars` (170-191): filter, then a stable sort by the
comparator (`Array.prototype.sort` is required to be stable). -/
def filteredAndSortedCars (cars : List CarRow) (searchQuery sortBy : String) :
    List CarRow :=
  (jsFilter cars searchQuery).mergeSort (carSortLE sortBy)

/-! ## Validation (`validateForm`, App.js 552-581; identical copy 863-892) -/

/-- One optional error message per form field, mirroring the `newErrors`
object: a `some` entry is a key that was assigned. -/
structure FormErrors where
  brand : Option String
  model : Option String
  year : Option String
  km : Option String
  price : Option String
  ownerName : Option String
  ownerPhone : Option String
  ownerEmail : Option String
deriving DecidableEq, Repr

/-- The empty `newErrors` object. -/
def noErrors : FormErrors :=
  { brand := none, model := none, year := none, km := none, price := none
    ownerName := none, ownerPhone := none, ownerEmail := none }

/-- Line 563: `parseInt(year) < 1900 || parseInt(year) > currentYear + 1`;
both comparisons are false when `parseInt` returns NaN. -/
def yearInvalid (s : String) (currentYear : Int) : Bool :=
  match jsParseInt s with
  | some n => decide (n < 1900) || decide (n > currentYear + 1)
  | none => false

/-- Lines 567 and 571: `parseInt(s) < 0`, false when `parseInt` is NaN. -/
def negInvalid (s : String) : Bool :=
  match jsParseInt s with
  | some n => decide (n < 0)
  | none => false

/-- `validateForm` (552-581). Required checks test the trimmed string;
the numeric range checks and the email check test the raw string for
truthiness (non-emptiness) and may overwrite a required entry. -/
def validateForm (fd : FormData) (currentYear : Int) : FormErrors :=
  { brand := if jsTrim fd.brand = "" then some "Brand is required" else none
    model := if jsTrim fd.model = "" then some "Model is required" else none
    year :=
      if fd.year ≠ "" ∧ yearInvalid fd.year currentYear = true then some "Invalid year"
      else if jsTrim fd.year = "" then some "Year is required" else none
    km :=
      if fd.km ≠ "" ∧ negInvalid fd.km = true then some "Invalid mileage"
      else if jsTrim fd.km = "" then some "Mileage is required" else none
    price :=
      if fd.price ≠ "" ∧ negInvalid fd.price = true then some "Invalid price"
      else if jsTrim fd.price = "" then some "Price is required" else none
    ownerName := if jsTrim fd.ownerName = "" then some "Name is required" else none
    ownerPhone := if jsTrim fd.ownerPhone = "" then some "Phone is required" else none
    ownerEmail :=
      if fd.ownerEmail ≠ "" ∧ jsIncludes fd.ownerEmail "@" = false
      then some "Invalid email address" else none }

/-! ## Screen-level control flow (App.js 86-168) -/

/-- The pieces of component state the mutation handlers touch. -/
structure AppState where
  cars : List CarRow
  screen : String
  selectedCar : Option CarRow
deriving DecidableEq

/-- Outcome of a remote call: the supabase error branch or a success. -/
def DbResult (α : Type) : Type := Except String α

/-- `loadCars` at the client (lines 44-59): on error only an alert is shown
and `cars` keeps its value; on success `setCars(data || [])`. -/
def loadCarsResult (cars : List CarRow) (res : DbResult (List CarRow)) :
    List CarRow :=
  match res with
  | .error _ => cars
  | .ok data => data

/-- The state transition of `addCar` (86-110): a failed insert leaves the
whole state alone; a successful insert re-fetches via `loadCars` and
navigates home. -/
def addCarApp (st : AppState) (insertRes : DbResult Unit)
    (loadRes : DbResult (List CarRow)) : AppState :=
  match insertRes with
  | .error _ => st
  | .ok _ => { st with cars := loadCarsResult st.cars loadRes, screen := "home" }

/-- The state transition of `updateCar` (112-136), same shape as `addCar`. -/
def updateCarApp (st : AppState) (updateRes : DbResult Unit)
    (loadRes : DbResult (List CarRow)) : AppState :=
  match updateRes with
  | .error _ => st
  | .ok _ => { st with cars := loadCarsResult st.cars loadRes, screen := "home" }

/-- The two buttons of the delete confirmation alert (lines 142-165). -/
inductive ConfirmChoice where
  | cancel
  | confirm
deriving DecidableEq

/-- Persistence calls a handler can issue, for tracking when the remote
delete is actually invoked. -/
inductive PersistOp where
  | deleteOp (id : Nat)
  | selectOp
deriving DecidableEq

/-- The state transition of `deleteCar` (138-168), paired with the list of
persistence calls issued. The Cancel button has no handler, so choosing it
performs no call and changes nothing; Delete runs the remote delete, and on
success re-fetches, navigates home and clears the selection. -/
def deleteCarApp (st : AppState) (carId : Nat) (choice : ConfirmChoice)
    (deleteRes : DbResult Unit) (loadRes : DbResult (List CarRow)) :
    AppState × List PersistOp :=
  match choice with
  | .cancel => (st, [])
  | .confirm =>
    match deleteRes with
    | .error _ => (st, [.deleteOp carId])
    | .ok _ =>
      ({ cars := loadCarsResult st.cars loadRes, screen := "home",
         selectedCar := none },
       [.deleteOp carId, .selectOp])

/-- `removeImage` (640-643 and 950-953):
`formData.images.filter((_, i) => i !== index)` written back over the draft,
leaving every other field as it was. -/
def removeImage (fd : FormData) (index : Nat) : FormData :=
  { fd with images := ((fd.images.enum.filter fun p => p.1 != index).map Prod.snd) }

/-! ## Concrete fixtures used by the claim theorems -/

def draftC1 : FormData :=
  { brand := "Volvo", model := "V70", year := "2018", km := "120000"
    price := "150000", description := "Pen bil", images := ["uri-a", "uri-b"]
    ownerName := "Ola Nordmann", ownerPhone := "12345678"
    ownerEmail := "ola@example.com" }

def rowC2 : CarRow :=
  { id := 1, user_id := "u1", brand := "Toyota", model := "Corolla"
    year := "2015", km := "90000", price := "80000", images := ["uri-old"]
    description := some "gammel beskrivelse", ownerName := some "Gammel Eier"
    ownerPhone := some "11111111", ownerEmail := some "gammel@example.com"
    created_at := 100, updated_at := 100 }

def draftC2 : FormData :=
  { brand := "Audi", model := "A4", year := "2019", km := "45000"
    price := "210000", description := "ny beskrivelse", images := ["uri-new"]
    ownerName := "Ny Eier", ownerPhone := "22222222", ownerEmail := "ny@example.com" }

def rowC3 : CarRow :=
  { id := 1, user_id := "u1", brand := "Volvo", model := "V70", year := "2018"
    km := "50000", price := "150000", images := [], description := none
    ownerName := none, ownerPhone := none, ownerEmail := none
    created_at := 100, updated_at := 100 }

def rowC4old : CarRow :=
  { id := 1, user_id := "u1", brand := "Volvo", model := "V70", year := "2018"
    km := "1", price := "1", images := [], description := none
    ownerName := none, ownerPhone := none, ownerEmail := none
    created_at := 100, updated_at := 100 }

def rowC4new : CarRow :=
  { id := 2, user_id := "u1", brand := "Audi", model := "A4", year := "2021"
    km := "1", price := "1", images := [], description := none
    ownerName := none, ownerPhone := none, ownerEmail := none
    created_at := 200, updated_at := 200 }

def fdC5 : FormData :=
  { brand := "", model := "Corolla", year := "1800", km := "120000"
    price := "50000", description := "", images := [], ownerName := "Kari Nordmann"
    ownerPhone := "99887766", ownerEmail := "" }

def fdC6 : FormData :=
  { brand := "Volvo", model := "V70", year := "abc", km := "xyz", price := "-"
    description := "", images := [], ownerName := "Kari", ownerPhone := "998"
    ownerEmail := "" }

/-- A row with the given identifier and price string, the other fields fixed;
used for the sorting claims. -/
def rowP (i : Nat) (pr : String) : CarRow :=
  { id := i, user_id := "u", brand := "Volvo", model := "V70", year := "2020"
    km := "1", price := pr, images := [], description := none, ownerName := none
    ownerPhone := none, ownerEmail := none, created_at := i, updated_at := i }

/-- Input for the sort-stability counterexample: one listing with price 3,
two equal-priced listings (ids 4 and 5), and unparsable prices elsewhere. -/
def carsC8 : List CarRow :=
  [rowP 1 "3", rowP 2 "abc", rowP 3 "abc", rowP 4 "5", rowP 5 "5",
   rowP 6 "abc", rowP 7 "abc", rowP 8 "abc"]

/-- The comparator of a sort key is consistent on a listing set when every
numeric key it reads parses (an empty string counts, it is replaced by 0);
the date comparator is constant and hence always consistent. -/
def comparatorConsistent (sortBy : String) (cars : List CarRow) : Bool :=
  if sortBy = "price" then cars.all (fun c => (priceNum c).isSome)
  else if sortBy = "km" then cars.all (fun c => (kmNum c).isSome)
  else true

def stC9 : AppState := { cars := [rowC3], screen := "details", selectedCar := some rowC3 }

def fdC10 : FormData :=
  { brand := "B", model := "M", year := "2020", km := "1", price := "2"
    description := "", images := ["uri-a", "uri-b", "uri-c"], ownerName := "N"
    ownerPhone := "P", ownerEmail := "" }

/-! ## Helper lemmas -/

theorem dropWhile_head_not {α : Type} {p : α → Bool} :
    ∀ {l : List α} {a : α} {t : List α}, l.dropWhile p = a :: t → p a = false := by
  intro l
  induction l with
  | nil => intro a t h; simp at h
  | cons x xs ih =>
    intro a t h
    rw [List.dropWhile_cons] at h
    by_cases hp : p x = true
    · rw [if_pos hp] at h
      exact ih h
    · rw [if_neg hp] at h
      injection h with h1 _
      subst h1
      simpa using hp

theorem trimChars_eq_nil {cs : List Char} :
    trimChars cs = [] ↔ cs.dropWhile Char.isWhitespace = [] := by
  constructor
  · intro h
    by_contra hne
    obtain ⟨a, t, ht⟩ : ∃ a t, cs.dropWhile Char.isWhitespace = a :: t := by
      cases hcs : cs.dropWhile Char.isWhitespace with
      | nil => exact absurd hcs hne
      | cons a t => exact ⟨a, t, rfl⟩
    have ha : Char.isWhitespace a = false := dropWhile_head_not ht
    unfold trimChars at h
    rw [ht] at h
    have h2 : (a :: t).reverse.dropWhile Char.isWhitespace = [] := by
      have h3 := congrArg List.reverse h
      simpa using h3
    have h4 := List.dropWhile_eq_nil_iff.mp h2 a (by simp)
    rw [ha] at h4
    cases h4
  · intro h
    unfold trimChars
    rw [h]
    simp

theorem jsParseInt_of_trim_empty {s : String} (h : jsTrim s = "") :
    jsParseInt s = none := by
  have h1 : trimChars s.data = [] := by
    have h0 := congrArg String.data h
    simpa [jsTrim] using h0
  have h2 : s.data.dropWhile Char.isWhitespace = [] := trimChars_eq_nil.mp h1
  simp [jsParseInt, jsParseIntChars, h2, parseUnsigned, parseDigits]

theorem occursIn_nil (l : List Char) : occursIn [] l = true := by
  cases l <;> simp [occursIn, leadsWith]

theorem jsIncludes_empty (s : String) : jsIncludes s "" = true :=
  occursIn_nil s.data

theorem enumFrom_filter_ne_eraseIdx {α : Type} :
    ∀ (xs : List α) (n k : Nat),
      ((List.enumFrom n xs).filter fun p => p.1 != k).map Prod.snd =
        if k < n then xs else xs.eraseIdx (k - n) := by
  intro xs
  induction xs with
  | nil => intro n k; simp
  | cons x xs ih =>
    intro n k
    rw [List.enumFrom, List.filter_cons]
    by_cases hnk : n = k
    · subst hnk
      simp only [bne_self_eq_false, Bool.false_eq_true, if_false]
      rw [ih (n + 1) n, if_pos (Nat.lt_succ_self n)]
      rw [if_neg (Nat.lt_irrefl n), Nat.sub_self, List.eraseIdx_cons_zero]
    · have hb : ((n, x).1 != k) = true := by simpa using hnk
      rw [if_pos hb, List.map_cons, ih (n + 1) k]
      rcases Nat.lt_trichotomy k n with hlt | heq | hgt
      · rw [if_pos (Nat.lt_succ_of_lt hlt), if_pos hlt]
      · exact absurd heq.symm hnk
      · have h1 : ¬ k < n := Nat.not_lt.mpr (Nat.le_of_lt hgt)
        have h2 : ¬ k < n + 1 := Nat.not_lt.mpr hgt
        rw [if_neg h2, if_neg h1]
        have h3 : k - n = (k - (n + 1)) + 1 := by omega
        rw [h3, List.eraseIdx_cons_succ]

/-! ## Claim theorems -/

/-- Claim C1: the spec and the claim require `insert` to persist every draft
field, and the rest of the code (validation, the details screen, the edit
preload) relies on the stored listing carrying `description`, `ownerName`,
`ownerPhone` and `ownerEmail`. The insert payload drops them: after
`insert(draft)` the single listed row holds `none` in all four columns even
though the draft carried non-empty values, so no listing in `listAll` has
fields equal to the draft. -/
theorem c1_insert_drops_contact_fields :
    listAll (addCar [] "user-1" 1 100 draftC1) =
      [{ id := 1, user_id := "user-1", brand := "Volvo", model := "V70",
         year := "2018", km := "120000", price := "150000",
         images := ["uri-a", "uri-b"], description := none, ownerName := none,
         ownerPhone := none, ownerEmail := none, created_at := 100,
         updated_at := 100 }] ∧
    draftC1.description = "Pen bil" ∧ draftC1.ownerName = "Ola Nordmann" ∧
    draftC1.ownerPhone = "12345678" ∧ draftC1.ownerEmail = "ola@example.com" := by
  refine ⟨?_, rfl, rfl, rfl, rfl⟩
  simp [listAll, addCar, draftC1]

/-- Claim C2: the update payload overwrites only `brand`, `model`, `year`,
`km`, `price`, `images` and `updated_at`; the `description`, `ownerName`,
`ownerPhone` and `ownerEmail` columns keep their old values, so an edit of
the contact fields is silently discarded, contradicting the claim that all
non-identifier fields are replaced by the draft. -/
theorem c2_update_keeps_old_contact_fields :
    updateCar [rowC2] 1 draftC2 200 =
      [{ id := 1, user_id := "u1", brand := "Audi", model := "A4",
         year := "2019", km := "45000", price := "210000", images := ["uri-new"],
         description := some "gammel beskrivelse", ownerName := some "Gammel Eier",
         ownerPhone := some "11111111", ownerEmail := some "gammel@example.com",
         created_at := 100, updated_at := 200 }] ∧
    draftC2.description = "ny beskrivelse" ∧ draftC2.ownerName = "Ny Eier" ∧
    draftC2.ownerPhone = "22222222" ∧ draftC2.ownerEmail = "ny@example.com" := by
  refine ⟨?_, rfl, rfl, rfl, rfl⟩
  decide

/-- Claim C4: with sort key `date` the comparator reads `car.createdAt`, a
property the `cars` rows do not have (their column is `created_at`), so
every comparison is NaN, SortCompare maps it to 0, and the stable sort
returns the filtered input unchanged: an input ordered oldest-first stays
oldest-first instead of most-recent-first. -/
theorem c4_date_sort_is_noop :
    filteredAndSortedCars [rowC4old, rowC4new] "" "date" = [rowC4old, rowC4new] ∧
    rowC4old.created_at < rowC4new.created_at := by
  constructor
  · have hf : jsFilter [rowC4old, rowC4new] "" = [rowC4old, rowC4new] := by decide
    have hp : List.Pairwise (fun a b => carSortLE "date" a b = true)
        [rowC4old, rowC4new] := by decide
    unfold filteredAndSortedCars
    rw [hf]
    exact List.mergeSort_of_sorted hp
  · decide

/-- Claim C7: each mutation handler reacts to a failed remote call with an
alert only; the `cars` state, the screen and the selection are untouched,
and a failing `loadCars` also keeps the previous set. -/
theorem c7_failed_mutation_keeps_state (st : AppState) (msg : String)
    (loadRes : DbResult (List CarRow)) (carId : Nat) :
    addCarApp st (.error msg) loadRes = st ∧
    updateCarApp st (.error msg) loadRes = st ∧
    (deleteCarApp st carId .confirm (.error msg) loadRes).1 = st ∧
    loadCarsResult st.cars (.error msg) = st.cars :=
  ⟨rfl, rfl, rfl, rfl⟩

/-- Claim C9: choosing Cancel in the delete confirmation performs no
persistence call and leaves the state exactly as it was, and the remote
delete appears among the issued calls only when Delete was confirmed. -/
theorem c9_delete_only_after_confirm (st : AppState) (carId i : Nat)
    (choice : ConfirmChoice) (deleteRes : DbResult Unit)
    (loadRes : DbResult (List CarRow)) :
    deleteCarApp st carId .cancel deleteRes loadRes = (st, []) ∧
    (PersistOp.deleteOp i ∈ (deleteCarApp st carId choice deleteRes loadRes).2 →
      choice = .confirm) := by
  refine ⟨rfl, ?_⟩
  intro hmem
  cases choice with
  | confirm => rfl
  | cancel => simp [deleteCarApp] at hmem

/-- Witness for claim C9 at a concrete state: the cancel equation, and the
confirm conclusion drawn from a run that did issue the remote delete. -/
theorem c9_witness :
    deleteCarApp stC9 7 .cancel (.ok ()) (.ok []) = (stC9, []) ∧
    ConfirmChoice.confirm = .confirm :=
  ⟨(c9_delete_only_after_confirm stC9 7 7 .confirm (.ok ()) (.ok [])).1,
   (c9_delete_only_after_confirm stC9 7 7 .confirm (.ok ()) (.ok [])).2 (by decide)⟩

/-- Claim C10: removing the image at a valid index keeps every other draft
field and replaces the image list by the same list minus its i-th element,
preserving the order of the remaining images. -/
theorem c10_remove_image (fd : FormData) (i : Nat) (_h : i < fd.images.length) :
    removeImage fd i = { fd with images := fd.images.eraseIdx i } := by
  unfold removeImage
  congr 1
  have h0 := enumFrom_filter_ne_eraseIdx fd.images 0 i
  rw [if_neg (Nat.not_lt_zero i), Nat.sub_zero] at h0
  simpa [List.enum] using h0

/-- Witness for claim C10 at a concrete draft and index. -/
theorem c10_witness :
    1 < fdC10.images.length ∧
    removeImage fdC10 1 = { fdC10 with images := fdC10.images.eraseIdx 1 } :=
  ⟨by decide, c10_remove_image fdC10 1 (by decide)⟩

/-- Claim C6: when a numeric field does not parse (`parseInt` is NaN), both
range comparisons are false, so the corresponding range error is never
reported: unparsable numeric strings pass the range checks. -/
theorem c6_unparsable_passes_range_checks (fd : FormData) (cy : Int) :
    (jsParseInt fd.year = none → (validateForm fd cy).year ≠ some "Invalid year") ∧
    (jsParseInt fd.km = none → (validateForm fd cy).km ≠ some "Invalid mileage") ∧
    (jsParseInt fd.price = none → (validateForm fd cy).price ≠ some "Invalid price") := by
  refine ⟨?_, ?_, ?_⟩ <;> intro hp
  · simp only [validateForm]
    have hc : yearInvalid fd.year cy = false := by simp [yearInvalid, hp]
    rw [if_neg (by simp [hc])]
    split <;> simp
  · simp only [validateForm]
    have hc : negInvalid fd.km = false := by simp [negInvalid, hp]
    rw [if_neg (by simp [hc])]
    split <;> simp
  · simp only [validateForm]
    have hc : negInvalid fd.price = false := by simp [negInvalid, hp]
    rw [if_neg (by simp [hc])]
    split <;> simp

/-- Witness for claim C6: year abc, mileage xyz and price consisting of a
bare minus sign all parse to NaN and none of the range errors is raised. -/
theorem c6_witness :
    (validateForm fdC6 2025).year ≠ some "Invalid year" ∧
    (validateForm fdC6 2025).km ≠ some "Invalid mileage" ∧
    (validateForm fdC6 2025).price ≠ some "Invalid price" :=
  ⟨(c6_unparsable_passes_range_checks fdC6 2025).1 (by decide),
   (c6_unparsable_passes_range_checks fdC6 2025).2.1 (by decide),
   (c6_unparsable_passes_range_checks fdC6 2025).2.2 (by decide)⟩

/-- Claim C3 counterexample: the filter lowercases the search text but never
trims it. The trimmed, lowercased text volvo is a substring of the lowercased
brand Volvo, so the claim says the listing is returned, yet the query with
the untrimmed search text returns nothing. -/
theorem c3_untrimmed_search_excluded :
    jsIncludes (jsToLower rowC3.brand) (jsToLower (jsTrim " volvo")) = true ∧
    rowC3 ∉ filteredAndSortedCars [rowC3] " volvo" "date" := by
  refine ⟨by decide, ?_⟩
  intro hmem
  have h0 : jsFilter [rowC3] " volvo" = [] := by decide
  have h1 : filteredAndSortedCars [rowC3] " volvo" "date" = [] := by
    unfold filteredAndSortedCars
    rw [h0]
    simp
  rw [h1] at hmem
  exact List.not_mem_nil rowC3 hmem

/-- Claim C3 as amended: a listing appears in the query output exactly when
it is in the input set and the lowercased (untrimmed) search text is a
substring of its lowercased brand, of its lowercased model, or of its year
string; an empty search text matches every listing. -/
theorem c3_filter_membership (cars : List CarRow) (searchQuery sortBy : String)
    (car : CarRow) :
    (car ∈ filteredAndSortedCars cars searchQuery sortBy ↔
      car ∈ cars ∧
        (jsIncludes (jsToLower car.brand) (jsToLower searchQuery) = true ∨
         jsIncludes (jsToLower car.model) (jsToLower searchQuery) = true ∨
         jsIncludes car.year (jsToLower searchQuery) = true)) ∧
    (searchQuery = "" →
      (car ∈ filteredAndSortedCars cars searchQuery sortBy ↔ car ∈ cars)) := by
  have hmem : car ∈ filteredAndSortedCars cars searchQuery sortBy ↔
      car ∈ cars ∧ carMatches searchQuery car = true := by
    unfold filteredAndSortedCars jsFilter
    rw [List.mem_mergeSort, List.mem_filter]
  constructor
  · rw [hmem]
    simp only [carMatches, Bool.or_eq_true]
    tauto
  · intro hq
    subst hq
    rw [hmem]
    simp [carMatches, show jsToLower "" = "" from rfl, jsIncludes_empty]

theorem if_some_iff {c : Prop} [Decidable c] {m : String} :
    (if c then some m else none) = some m ↔ c := by
  split <;> simp_all

theorem overwrite_if_some_iff {c1 : Prop} [Decidable c1] {c2 : Prop} [Decidable c2]
    {m1 m2 : String} (hne : m1 ≠ m2) (himp : c2 → ¬ c1) :
    ((if c1 then some m1 else if c2 then some m2 else none) = some m2 ↔ c2) := by
  by_cases h1 : c1
  · rw [if_pos h1]
    constructor
    · intro h
      exact absurd (Option.some.inj h) hne
    · intro hc2
      exact absurd h1 (himp hc2)
  · rw [if_neg h1]
    exact if_some_iff

/-- Claim C5 counterexample: a draft whose brand is missing but whose year
is the non-empty, satisfied-as-required string 1800 receives a mapping with
an Invalid year entry for the satisfied year field, so the mapping does not
consist only of the required entries for the missing fields. -/
theorem c5_entry_for_satisfied_field :
    jsTrim fdC5.brand = "" ∧ jsTrim fdC5.year ≠ "" ∧
    (validateForm fdC5 2025).year = some "Invalid year" := by
  decide

/-- Claim C5 as amended: for every draft with at least one missing required
field, validate returns a non-empty mapping that contains the required
entry for a required field exactly when that field is empty after trimming;
satisfied fields never receive a required entry, though non-empty fields
may additionally receive a range or email-format entry. -/
theorem c5_required_entries (fd : FormData) (cy : Int)
    (hmiss : jsTrim fd.brand = "" ∨ jsTrim fd.model = "" ∨ jsTrim fd.year = "" ∨
             jsTrim fd.km = "" ∨ jsTrim fd.price = "" ∨ jsTrim fd.ownerName = "" ∨
             jsTrim fd.ownerPhone = "") :
    validateForm fd cy ≠ noErrors ∧
    ((validateForm fd cy).brand = some "Brand is required" ↔ jsTrim fd.brand = "") ∧
    ((validateForm fd cy).model = some "Model is required" ↔ jsTrim fd.model = "") ∧
    ((validateForm fd cy).year = some "Year is required" ↔ jsTrim fd.year = "") ∧
    ((validateForm fd cy).km = some "Mileage is required" ↔ jsTrim fd.km = "") ∧
    ((validateForm fd cy).price = some "Price is required" ↔ jsTrim fd.price = "") ∧
    ((validateForm fd cy).ownerName = some "Name is required" ↔
      jsTrim fd.ownerName = "") ∧
    ((validateForm fd cy).ownerPhone = some "Phone is required" ↔
      jsTrim fd.ownerPhone = "") := by
  have hbrand : (validateForm fd cy).brand = some "Brand is required" ↔
      jsTrim fd.brand = "" := by
    simp only [validateForm]
    exact if_some_iff
  have hmodel : (validateForm fd cy).model = some "Model is required" ↔
      jsTrim fd.model = "" := by
    simp only [validateForm]
    exact if_some_iff
  have hname : (validateForm fd cy).ownerName = some "Name is required" ↔
      jsTrim fd.ownerName = "" := by
    simp only [validateForm]
    exact if_some_iff
  have hphone : (validateForm fd cy).ownerPhone = some "Phone is required" ↔
      jsTrim fd.ownerPhone = "" := by
    simp only [validateForm]
    exact if_some_iff
  have hyear : (validateForm fd cy).year = some "Year is required" ↔
      jsTrim fd.year = "" := by
    simp only [validateForm]
    refine overwrite_if_some_iff (by decide) ?_
    rintro h2 ⟨-, hinv⟩
    rw [yearInvalid, jsParseInt_of_trim_empty h2] at hinv
    cases hinv
  have hkm : (validateForm fd cy).km = some "Mileage is required" ↔
      jsTrim fd.km = "" := by
    simp only [validateForm]
    refine overwrite_if_some_iff (by decide) ?_
    rintro h2 ⟨-, hinv⟩
    rw [negInvalid, jsParseInt_of_trim_empty h2] at hinv
    cases hinv
  have hprice : (validateForm fd cy).price = some "Price is required" ↔
      jsTrim fd.price = "" := by
    simp only [validateForm]
    refine overwrite_if_some_iff (by decide) ?_
    rintro h2 ⟨-, hinv⟩
    rw [negInvalid, jsParseInt_of_trim_empty h2] at hinv
    cases hinv
  refine ⟨?_, hbrand, hmodel, hyear, hkm, hprice, hname, hphone⟩
  intro heq
  rcases hmiss with h | h | h | h | h | h | h
  · have hx := hbrand.mpr h
    rw [heq] at hx
    simp [noErrors] at hx
  · have hx := hmodel.mpr h
    rw [heq] at hx
    simp [noErrors] at hx
  · have hx := hyear.mpr h
    rw [heq] at hx
    simp [noErrors] at hx
  · have hx := hkm.mpr h
    rw [heq] at hx
    simp [noErrors] at hx
  · have hx := hprice.mpr h
    rw [heq] at hx
    simp [noErrors] at hx
  · have hx := hname.mpr h
    rw [heq] at hx
    simp [noErrors] at hx
  · have hx := hphone.mpr h
    rw [heq] at hx
    simp [noErrors] at hx

/-- Witness for claim C5 at the draft with a missing brand. -/
theorem c5_witness : validateForm fdC5 2025 ≠ noErrors :=
  (c5_required_entries fdC5 2025 (Or.inl (by decide))).1

theorem merge_congr {α : Type} {le le' : α → α → Bool} :
    ∀ (xs ys : List α), (∀ a ∈ xs, ∀ b ∈ ys, le a b = le' a b) →
      xs.merge ys le = xs.merge ys le'
  | [], ys, _ => by simp
  | x :: xs, [], _ => by simp
  | x :: xs, y :: ys, h => by
    rw [List.cons_merge_cons, List.cons_merge_cons,
      h x (List.mem_cons_self x xs) y (List.mem_cons_self y ys)]
    by_cases hxy : le' x y = true
    · rw [if_pos hxy, if_pos hxy]
      rw [merge_congr xs (y :: ys) (fun a ha b hb => h a (List.mem_cons_of_mem x ha) b hb)]
    · rw [if_neg hxy, if_neg hxy]
      rw [merge_congr (x :: xs) ys (fun a ha b hb => h a ha b (List.mem_cons_of_mem y hb))]
termination_by xs ys => xs.length + ys.length

theorem mergeSort_congr {α : Type} {le le' : α → α → Bool} :
    ∀ (l : List α), (∀ a ∈ l, ∀ b ∈ l, le a b = le' a b) →
      l.mergeSort le = l.mergeSort le'
  | [], _ => by simp
  | [a], _ => by simp
  | a :: b :: xs, h => by
    have hl1 : (List.splitInTwo ⟨a :: b :: xs, rfl⟩).1.1.length < xs.length + 1 + 1 := by
      simp [List.splitInTwo_fst]
      omega
    have hl2 : (List.splitInTwo ⟨a :: b :: xs, rfl⟩).2.1.length < xs.length + 1 + 1 := by
      simp [List.splitInTwo_snd]
      omega
    have hsub1 : ∀ c ∈ (List.splitInTwo ⟨a :: b :: xs, rfl⟩).1.1, c ∈ a :: b :: xs := by
      rw [List.splitInTwo_fst]
      intro c hc
      exact List.take_subset _ _ hc
    have hsub2 : ∀ c ∈ (List.splitInTwo ⟨a :: b :: xs, rfl⟩).2.1, c ∈ a :: b :: xs := by
      rw [List.splitInTwo_snd]
      intro c hc
      exact List.drop_subset _ _ hc
    rw [List.mergeSort, List.mergeSort]
    rw [mergeSort_congr (List.splitInTwo ⟨a :: b :: xs, rfl⟩).1.1
      (fun x hx y hy => h x (hsub1 x hx) y (hsub1 y hy))]
    rw [mergeSort_congr (List.splitInTwo ⟨a :: b :: xs, rfl⟩).2.1
      (fun x hx y hy => h x (hsub2 x hx) y (hsub2 y hy))]
    apply merge_congr
    intro x hx y hy
    exact h x (hsub1 x (List.mem_mergeSort.mp hx)) y (hsub2 y (List.mem_mergeSort.mp hy))
termination_by l => l.length

/-- Claim C8 counterexample: prices 3, abc, abc, 5, 5, abc, abc, abc. The
two price-5 listings (ids 4 and 5) compare equal under the price key, and
id 4 precedes id 5 in the input, yet the sorted output places id 5 first:
the NaN comparisons against the unparsable prices make the comparator
inconsistent, and the sort then reorders the tie. -/
theorem c8_tie_reordered :
    carCompare "price" (rowP 4 "5") (rowP 5 "5") = 0 ∧
    [rowP 4 "5", rowP 5 "5"].Sublist carsC8 ∧
    filteredAndSortedCars carsC8 "" "price" =
      [rowP 5 "5", rowP 1 "3", rowP 2 "abc", rowP 3 "abc", rowP 4 "5",
       rowP 6 "abc", rowP 7 "abc", rowP 8 "abc"] ∧
    ¬ [rowP 4 "5", rowP 5 "5"].Sublist
      [rowP 5 "5", rowP 1 "3", rowP 2 "abc", rowP 3 "abc", rowP 4 "5",
       rowP 6 "abc", rowP 7 "abc", rowP 8 "abc"] := by
  refine ⟨by decide, by decide, ?_, by decide⟩
  have hf : jsFilter carsC8 "" = carsC8 := by decide
  unfold filteredAndSortedCars
  rw [hf]
  simp +decide [carsC8, List.mergeSort, List.splitInTwo, List.splitAt_eq, List.merge]

/-- Claim C8 as amended: whenever the comparator of the chosen sort key is
consistent on the filtered set (every price or mileage it reads parses,
which always holds for the date key), the sort is stable: a pair of
listings with equal keys keeps its input order in the query output. -/
theorem c8_stable_when_consistent (cars : List CarRow) (searchQuery sortBy : String)
    (a b : CarRow)
    (hcons : comparatorConsistent sortBy (jsFilter cars searchQuery) = true)
    (hpair : [a, b].Sublist (jsFilter cars searchQuery))
    (heq : carCompare sortBy a b = 0) :
    [a, b].Sublist (filteredAndSortedCars cars searchQuery sortBy) := by
  unfold filteredAndSortedCars
  have ha : a ∈ jsFilter cars searchQuery := hpair.subset (by simp)
  have hb : b ∈ jsFilter cars searchQuery := hpair.subset (by simp)
  by_cases hk : sortBy = "price"
  · subst hk
    rw [comparatorConsistent, if_pos rfl, List.all_eq_true] at hcons
    obtain ⟨pa, hpa⟩ := Option.isSome_iff_exists.mp (hcons a ha)
    obtain ⟨pb, hpb⟩ := Option.isSome_iff_exists.mp (hcons b hb)
    have hcongr : (jsFilter cars searchQuery).mergeSort (carSortLE "price") =
        (jsFilter cars searchQuery).mergeSort
          (fun x y => decide ((priceNum y).getD 0 ≤ (priceNum x).getD 0)) := by
      apply mergeSort_congr
      intro x hx y hy
      obtain ⟨px, hpx⟩ := Option.isSome_iff_exists.mp (hcons x hx)
      obtain ⟨py, hpy⟩ := Option.isSome_iff_exists.mp (hcons y hy)
      simp [carSortLE, carCompare, hpx, hpy, nanSub, sortCompareVal]
    rw [hcongr]
    apply List.pair_sublist_mergeSort
    · intro x y z hxy hyz
      simp only [decide_eq_true_eq] at hxy hyz ⊢
      omega
    · intro x y
      rcases Int.le_total ((priceNum y).getD 0) ((priceNum x).getD 0) with h | h
      · simp [h]
      · simp [h]
    · simp [carCompare, hpa, hpb, nanSub, sortCompareVal] at heq
      simp [hpa, hpb]
      omega
    · exact hpair
  · by_cases hk2 : sortBy = "km"
    · subst hk2
      rw [comparatorConsistent] at hcons
      rw [if_neg (by decide), if_pos rfl, List.all_eq_true] at hcons
      obtain ⟨pa, hpa⟩ := Option.isSome_iff_exists.mp (hcons a ha)
      obtain ⟨pb, hpb⟩ := Option.isSome_iff_exists.mp (hcons b hb)
      have hcongr : (jsFilter cars searchQuery).mergeSort (carSortLE "km") =
          (jsFilter cars searchQuery).mergeSort
            (fun x y => decide ((kmNum x).getD 0 ≤ (kmNum y).getD 0)) := by
        apply mergeSort_congr
        intro x hx y hy
        obtain ⟨px, hpx⟩ := Option.isSome_iff_exists.mp (hcons x hx)
        obtain ⟨py, hpy⟩ := Option.isSome_iff_exists.mp (hcons y hy)
        simp [carSortLE, carCompare, hpx, hpy, nanSub, sortCompareVal]
      rw [hcongr]
      apply List.pair_sublist_mergeSort
      · intro x y z hxy hyz
        simp only [decide_eq_true_eq] at hxy hyz ⊢
        omega
      · intro x y
        rcases Int.le_total ((kmNum x).getD 0) ((kmNum y).getD 0) with h | h
        · simp [h]
        · simp [h]
      · simp [carCompare, hpa, hpb, nanSub, sortCompareVal] at heq
        simp [hpa, hpb]
        omega
      · exact hpair
    · have hle : ∀ x y : CarRow, carSortLE sortBy x y = true := by
        intro x y
        simp [carSortLE, carCompare, if_neg hk, if_neg hk2, nanSub, dateMs,
          sortCompareVal]
      apply List.pair_sublist_mergeSort
      · intro x y z _ _
        rw [hle]
      · intro x y
        rw [hle]
        simp
      · rw [hle]
      · exact hpair

/-- Witness for claim C8: two equal-priced listings with parsable prices
keep their input order in the sorted output. -/
theorem c8_witness :
    comparatorConsistent "price" (jsFilter [rowP 1 "5", rowP 2 "5"] "") = true ∧
    [rowP 1 "5", rowP 2 "5"].Sublist (jsFilter [rowP 1 "5", rowP 2 "5"] "") ∧
    carCompare "price" (rowP 1 "5") (rowP 2 "5") = 0 ∧
    [rowP 1 "5", rowP 2 "5"].Sublist
      (filteredAndSortedCars [rowP 1 "5", rowP 2 "5"] "" "price") :=
  ⟨by decide, by decide, by decide,
   c8_stable_when_consistent [rowP 1 "5", rowP 2 "5"] "" "price" (rowP 1 "5")
     (rowP 2 "5") (by decide) (by decide) (by decide)⟩

/-- Witness for claim C3: with an empty search text the query keeps every
listing of a concrete set. -/
theorem c3_witness :
    rowC3 ∈ filteredAndSortedCars [rowC3] "" "date" ↔ rowC3 ∈ [rowC3] :=
  (c3_filter_membership [rowC3] "" "date" rowC3).2 rfl
